import Mathlib

/-!
Verification of the brainfuck interpreter core (src/interpreter.rs, src/symbol.rs).

The interpreter owns a fixed tape of 30000 byte cells, a data pointer, an
instruction pointer, a loop-return stack and a machine state
(Running / Skipping(depth) / Halted).  The public entry point
interpret_symbol consumes one decoded symbol and either mutates the state
and returns Ok, or leaves it and returns an error.

Embedding conventions:
- u8 cells and usize indices are modelled as Nat; bounds checks from the
  source are carried over literally.
- The Rust array of bytes is modelled as a total function Nat -> Nat; every
  access in the source is guarded by a bound check, which we keep.
- The Vec used as the loop-return stack pushes and pops at the back; we
  model it as a List with the top at the head, which realises the same
  LIFO discipline.
- Rust Result<(), InterpreterError> becomes Except InterpreterErrorReason
  Unit (the InterpreterError struct is a single-field wrapper around its
  reason, which we flatten).
- The mismatched_brackets constructor contains a panic on its non-Skipping
  branch; a panic is modelled as the value none of an Option layered over
  the result, and interpret_symbol therefore returns
  Option (Interpreter × InterpreterResult), where none means the process
  panicked.
- The one ambient effect inside interpret_symbol is the call to the stdin
  reader read_byte inside read_ptr; the byte it would deliver is passed to
  interpret_symbol as an explicit argument, and read_byte itself is
  modelled separately from the line of input it consumes.
-/

/-- Capacity of the memory tape, the MEM_SIZE constant of the source. -/
def MEM_SIZE : Nat := 30000

/-- The eight instructions, from src/symbol.rs. -/
inductive InterpreterInstruction where
  | MovePtrRight
  | MovePtrLeft
  | IncrementPtr
  | DecrementPtr
  | PrintPtr
  | ReadPtr
  | LoopStart
  | LoopEnd
deriving DecidableEq, Repr

/-- Decoded symbols fed to the interpreter, from src/symbol.rs. -/
inductive InterpreterSymbol where
  | Instruction (i : InterpreterInstruction)
  | EOF
  | Other (c : Char)
deriving DecidableEq, Repr

/-- Machine states of the interpreter. -/
inductive InterpreterState where
  | Running
  | Skipping (depth : Nat)
  | Halted
deriving DecidableEq, Repr

/-- Fault kinds; payloads follow the Rust enum InterpreterErrorReason.
ValOutOfBounds carries a single byte (the Rust payload is one u8) and
MismatchedBrackets carries the instruction pointer and the missing bracket
count of the wrapped InterpreterMismatchedBracketsError struct. -/
inductive InterpreterErrorReason where
  | PtrOutOfBounds (ptr : Nat)
  | ValOutOfBounds (val : Nat)
  | InvalidChar
  | StackUnderflow
  | HaltedMachine
  | MismatchedBrackets (instruction_ptr : Nat) (missing_brackets : Nat)
  | UnprintableByte (byte : Nat)
deriving DecidableEq, Repr

/-- Result of one interpreter operation. -/
def InterpreterResult := Except InterpreterErrorReason Unit

/-- The interpreter state record, from the Interpreter struct. -/
structure Interpreter where
  memory : Nat → Nat
  data_ptr : Nat
  instruction_ptr : Nat
  stack : List Nat
  state : InterpreterState

/-- Fresh machine, Interpreter::new. -/
def Interpreter.new : Interpreter where
  memory := fun _ => 0
  data_ptr := 0
  instruction_ptr := 0
  stack := []
  state := .Running

/-- Error constructor ptr_out_of_bounds: the payload is the data pointer. -/
def ptr_out_of_bounds (s : Interpreter) : InterpreterResult :=
  .error (.PtrOutOfBounds s.data_ptr)

/-- Error constructor val_out_of_bounds: the payload is the byte currently
stored at the data pointer. -/
def val_out_of_bounds (s : Interpreter) : InterpreterResult :=
  .error (.ValOutOfBounds (s.memory s.data_ptr))

/-- Error constructor invalid_char. -/
def invalid_char : InterpreterResult := .error .InvalidChar

/-- Error constructor stack_underflow. -/
def stack_underflow : InterpreterResult := .error .StackUnderflow

/-- Error constructor halted_machine. -/
def halted_machine : InterpreterResult := .error .HaltedMachine

/-- Error constructor mismatched_brackets.  The source matches on the
machine state and panics ("Not in a skipping state") when it is not
Skipping; the panic is the none value. -/
def mismatched_brackets (s : Interpreter) : Option InterpreterResult :=
  match s.state with
  | .Skipping missing_brackets =>
      some (.error (.MismatchedBrackets s.instruction_ptr missing_brackets))
  | _ => none

/-- Checked u8 addition, u8::checked_add: none when the sum leaves a byte. -/
def checked_add_u8 (a b : Nat) : Option Nat :=
  if a + b ≤ 255 then some (a + b) else none

/-- Checked u8 subtraction, u8::checked_sub: none when it would go below 0. -/
def checked_sub_u8 (a b : Nat) : Option Nat :=
  if b ≤ a then some (a - b) else none

/-- Checked signed delta on a byte, the safe_delta_u8 function of
src/interpreter.rs: a positive delta is added with checked_add, otherwise
its absolute value (i8::unsigned_abs) is subtracted with checked_sub. -/
def safe_delta_u8 (left : Nat) (right : Int) : Option Nat :=
  if right > 0 then
    checked_add_u8 left right.toNat
  else
    checked_sub_u8 left (-right).toNat

/-- Checked access to the current cell, Interpreter::mem_ref.  The source
returns Option<&mut u8>; reads through it become this lookup and writes
become writeCell. -/
def mem_ref (s : Interpreter) : Option Nat :=
  if s.data_ptr < MEM_SIZE then some (s.memory s.data_ptr) else none

/-- Store a byte through the mutable reference produced by mem_ref. -/
def writeCell (s : Interpreter) (v : Nat) : Interpreter :=
  { s with memory := fun i => if i = s.data_ptr then v else s.memory i }

/-- Interpreter::move_right: step the data pointer right if the new value
is still below capacity, otherwise fault PtrOutOfBounds. -/
def move_right (s : Interpreter) : Interpreter × InterpreterResult :=
  if s.data_ptr + 1 < MEM_SIZE then
    ({ s with data_ptr := s.data_ptr + 1 }, .ok ())
  else
    (s, ptr_out_of_bounds s)

/-- Interpreter::move_left: step the data pointer left if it is positive,
otherwise fault PtrOutOfBounds. -/
def move_left (s : Interpreter) : Interpreter × InterpreterResult :=
  if s.data_ptr > 0 then
    ({ s with data_ptr := s.data_ptr - 1 }, .ok ())
  else
    (s, ptr_out_of_bounds s)

/-- Interpreter::delta_data_cell: apply safe_delta_u8 to the current cell;
write the new value on success, fault ValOutOfBounds on a delta failure and
PtrOutOfBounds when the cell is unaddressable. -/
def delta_data_cell (s : Interpreter) (delta : Int) :
    Interpreter × InterpreterResult :=
  match mem_ref s with
  | some v =>
      match safe_delta_u8 v delta with
      | some new_val => (writeCell s new_val, .ok ())
      | none => (s, val_out_of_bounds s)
  | none => (s, ptr_out_of_bounds s)

/-- Interpreter::increment_cell. -/
def increment_cell (s : Interpreter) : Interpreter × InterpreterResult :=
  delta_data_cell s 1

/-- Interpreter::decrement_cell. -/
def decrement_cell (s : Interpreter) : Interpreter × InterpreterResult :=
  delta_data_cell s (-1)

/-- The print_char collaborator: String::from_utf8 of the single byte
succeeds exactly when the byte is ASCII, the only bytes that are valid
one-byte UTF-8; the printed side effect is dropped, the returned string is
kept as the list of its bytes. -/
def print_char (byte : Nat) : Option (List Nat) :=
  if byte < 128 then some [byte] else none

/-- Interpreter::print_ptr: print the current cell, faulting
UnprintableByte when the byte is not valid UTF-8 on its own. -/
def print_ptr (s : Interpreter) : Interpreter × InterpreterResult :=
  match mem_ref s with
  | some byte =>
      match print_char byte with
      | some _ => (s, .ok ())
      | none => (s, .error (.UnprintableByte byte))
  | none => (s, ptr_out_of_bounds s)

/-- Interpreter::read_ptr: the byte delivered by the read_byte collaborator
is the argument inp; none means no byte was obtainable.  On a byte, it is
written into the current cell (PtrOutOfBounds when unaddressable); on none
the operation faults InvalidChar. -/
def read_ptr (inp : Option Nat) (s : Interpreter) :
    Interpreter × InterpreterResult :=
  match inp with
  | some byte =>
      match mem_ref s with
      | some _ => (writeCell s byte, .ok ())
      | none => (s, ptr_out_of_bounds s)
  | none => (s, invalid_char)

/-- Interpreter::enter_loop: read the current cell; when nonzero push the
current instruction pointer and stay Running, when zero switch to
Skipping(1); fault PtrOutOfBounds when the cell is unaddressable. -/
def enter_loop (s : Interpreter) : Interpreter × InterpreterResult :=
  match mem_ref s with
  | some byte =>
      if byte ≠ 0 then
        ({ s with stack := s.instruction_ptr :: s.stack,
                  state := .Running }, .ok ())
      else
        ({ s with state := .Skipping 1 }, .ok ())
  | none => (s, ptr_out_of_bounds s)

/-- Interpreter::exit_loop: pop the loop-return stack into the instruction
pointer, faulting StackUnderflow when the stack is empty. -/
def exit_loop (s : Interpreter) : Interpreter × InterpreterResult :=
  match s.stack with
  | loop_ptr :: rest =>
      ({ s with instruction_ptr := loop_ptr, stack := rest }, .ok ())
  | [] => (s, stack_underflow)

/-- Interpreter::next_instruction: advance the instruction pointer. -/
def next_instruction (s : Interpreter) : Interpreter :=
  { s with instruction_ptr := s.instruction_ptr + 1 }

/-- Decision of Result::is_ok. -/
def resultIsOk : InterpreterResult → Bool
  | .ok _ => true
  | .error _ => false

/-- Post-step of run_instruction for the instructions paired with
advance = true: the source advances the instruction pointer exactly when
advance && result.is_ok() holds, so with advance true the pointer moves
after a successful execution and the state is left as produced otherwise. -/
def advance_if_ok (p : Interpreter × InterpreterResult) :
    Interpreter × InterpreterResult :=
  if resultIsOk p.2 then (next_instruction p.1, p.2) else p

/-- Interpreter::run_instruction: dispatch one instruction; every
instruction is paired with advance = true except LoopEnd, whose advance is
false, so LoopEnd never advances the instruction pointer. -/
def run_instruction (inp : Option Nat) (s : Interpreter)
    (instruction : InterpreterInstruction) :
    Interpreter × InterpreterResult :=
  match instruction with
  | .MovePtrRight => advance_if_ok (move_right s)
  | .MovePtrLeft => advance_if_ok (move_left s)
  | .IncrementPtr => advance_if_ok (increment_cell s)
  | .DecrementPtr => advance_if_ok (decrement_cell s)
  | .PrintPtr => advance_if_ok (print_ptr s)
  | .ReadPtr => advance_if_ok (read_ptr inp s)
  | .LoopStart => advance_if_ok (enter_loop s)
  | .LoopEnd => exit_loop s

/-- Interpreter::interpret_symbol, the public entry point: dispatch on the
machine state and the symbol exactly as the source match does.  The value
none models the process panicking (only the panic inside
mismatched_brackets can surface here); inp is the byte the stdin
collaborator would deliver to read_ptr. -/
def interpret_symbol (inp : Option Nat) (s : Interpreter)
    (symbol : InterpreterSymbol) :
    Option (Interpreter × InterpreterResult) :=
  match s.state, symbol with
  | .Halted, _ => some (s, halted_machine)
  | .Skipping skip, .Instruction .LoopEnd =>
      let skip := skip - 1
      let s :=
        if skip > 0 then { s with state := .Skipping skip }
        else { s with state := .Running }
      some (next_instruction s, .ok ())
  | .Skipping _, .EOF =>
      (mismatched_brackets s).map (fun r => (s, r))
  | .Skipping skip, .Instruction .LoopStart =>
      some (next_instruction { s with state := .Skipping (skip + 1) }, .ok ())
  | .Skipping _, _ =>
      some (next_instruction s, .ok ())
  | .Running, .EOF => some ({ s with state := .Halted }, .ok ())
  | .Running, .Instruction instruction =>
      some (run_instruction inp s instruction)
  | .Running, .Other _ =>
      some (next_instruction s, .ok ())

/-- Rust len_utf8 of a char: the number of bytes of its UTF-8 encoding. -/
def len_utf8 (c : Char) : Nat :=
  if c.toNat < 0x80 then 1
  else if c.toNat < 0x800 then 2
  else if c.toNat < 0x10000 then 3
  else 4

/-- Bitwise NOT on usize (64-bit). -/
def usize_not (x : Nat) : Nat := 2 ^ 64 - 1 - x

/-- The read_byte collaborator of src/interpreter.rs, as a function of the
line stdin delivers (none when read_line itself fails).  The outer Option
models a panic: the source guard is the expression bang
first_char.len_utf8() == 1, whose bang is the bitwise NOT of a usize, so
the guard compares the complement of the length with 1 and never fires;
a first character wider than one byte then reaches encode_utf8 with a
one-byte buffer, which panics. -/
def read_byte (line : Option (List Char)) : Option (Option Nat) :=
  match line with
  | none => some none
  | some [] => some none
  | some (first_char :: _) =>
      if usize_not (len_utf8 first_char) = 1 then some none
      else if len_utf8 first_char ≤ 1 then some (some first_char.toNat)
      else none

/-- Composition of interpret_symbol with the stdin collaborator: read_byte
is invoked exactly on the one path that consumes input, a ReadPtr
instruction arriving in the Running state; its panic propagates. -/
def interpret_symbol_io (line : Option (List Char)) (s : Interpreter)
    (symbol : InterpreterSymbol) :
    Option (Interpreter × InterpreterResult) :=
  match s.state, symbol with
  | .Running, .Instruction .ReadPtr =>
      (read_byte line).bind (fun b => interpret_symbol b s symbol)
  | _, _ => interpret_symbol none s symbol

/-- Reachability by any sequence of interpret_symbol calls from a fresh
machine, with any input bytes, counting only non-panicking steps. -/
inductive Reachable : Interpreter → Prop where
  | start : Reachable Interpreter.new
  | step {s s' : Interpreter} {b : Option Nat} {y : InterpreterSymbol}
      {r : InterpreterResult} :
      Reachable s → interpret_symbol b s y = some (s', r) → Reachable s'

/-- Predicate deciding whether feeding symbol y to state s is a loop entry
taken at runtime: a LoopStart executed while Running over an addressable,
nonzero cell, the one situation in which enter_loop pushes. -/
def entersLoop (s : Interpreter) (y : InterpreterSymbol) : Bool :=
  decide (s.state = .Running) && decide (y = .Instruction .LoopStart)
    && decide (s.data_ptr < MEM_SIZE) && decide (s.memory s.data_ptr ≠ 0)

/-- Predicate deciding whether feeding symbol y to state s is an executed
loop exit: a LoopEnd executed while Running with a nonempty stack, the one
situation in which exit_loop pops. -/
def exitsLoop (s : Interpreter) (y : InterpreterSymbol) : Bool :=
  decide (s.state = .Running) && decide (y = .Instruction .LoopEnd)
    && !s.stack.isEmpty

/-- Reachability instrumented with ghost counters: e counts the loop
entries taken at runtime and x the executed loop exits along the run. -/
inductive ReachableC : Interpreter → Nat → Nat → Prop where
  | start : ReachableC Interpreter.new 0 0
  | step {s s' : Interpreter} {e x : Nat} {b : Option Nat}
      {y : InterpreterSymbol} {r : InterpreterResult} :
      ReachableC s e x → interpret_symbol b s y = some (s', r) →
      ReachableC s' (e + (if entersLoop s y then 1 else 0))
        (x + (if exitsLoop s y then 1 else 0))

theorem next_instruction_data_ptr (s : Interpreter) :
    (next_instruction s).data_ptr = s.data_ptr := rfl

theorem next_instruction_stack (s : Interpreter) :
    (next_instruction s).stack = s.stack := rfl

theorem writeCell_data_ptr (s : Interpreter) (v : Nat) :
    (writeCell s v).data_ptr = s.data_ptr := rfl

theorem writeCell_stack (s : Interpreter) (v : Nat) :
    (writeCell s v).stack = s.stack := rfl

theorem advance_if_ok_data_ptr (p : Interpreter × InterpreterResult) :
    ((advance_if_ok p).1).data_ptr = (p.1).data_ptr := by
  unfold advance_if_ok
  split <;> rfl

theorem advance_if_ok_stack (p : Interpreter × InterpreterResult) :
    ((advance_if_ok p).1).stack = (p.1).stack := by
  unfold advance_if_ok
  split <;> rfl

theorem move_right_data_ptr (s : Interpreter) (h : s.data_ptr < MEM_SIZE) :
    ((move_right s).1).data_ptr < MEM_SIZE := by
  unfold move_right
  split <;> simpa

theorem move_left_data_ptr (s : Interpreter) (h : s.data_ptr < MEM_SIZE) :
    ((move_left s).1).data_ptr < MEM_SIZE := by
  unfold move_left
  split <;> simp <;> omega

theorem delta_data_cell_data_ptr (s : Interpreter) (d : Int) :
    ((delta_data_cell s d).1).data_ptr = s.data_ptr := by
  unfold delta_data_cell
  split
  · split
    · exact writeCell_data_ptr s _
    · rfl
  · rfl

theorem print_ptr_data_ptr (s : Interpreter) :
    ((print_ptr s).1).data_ptr = s.data_ptr := by
  unfold print_ptr
  split
  · split <;> rfl
  · rfl

theorem read_ptr_data_ptr (b : Option Nat) (s : Interpreter) :
    ((read_ptr b s).1).data_ptr = s.data_ptr := by
  unfold read_ptr
  split
  · split
    · exact writeCell_data_ptr s _
    · rfl
  · rfl

theorem enter_loop_data_ptr (s : Interpreter) :
    ((enter_loop s).1).data_ptr = s.data_ptr := by
  unfold enter_loop
  split
  · split <;> rfl
  · rfl

theorem exit_loop_data_ptr (s : Interpreter) :
    ((exit_loop s).1).data_ptr = s.data_ptr := by
  unfold exit_loop
  split <;> rfl

/-- One executed instruction never moves the data pointer out of
[0, MEM_SIZE): it keeps it, steps it right only under the strict in-bounds
check of move_right, or steps it left. -/
theorem run_instruction_data_ptr (b : Option Nat) (s : Interpreter)
    (i : InterpreterInstruction) (h : s.data_ptr < MEM_SIZE) :
    ((run_instruction b s i).1).data_ptr < MEM_SIZE := by
  cases i <;>
    simp only [run_instruction, increment_cell, decrement_cell,
      advance_if_ok_data_ptr, delta_data_cell_data_ptr, print_ptr_data_ptr,
      read_ptr_data_ptr, enter_loop_data_ptr, exit_loop_data_ptr]
  case MovePtrRight => exact move_right_data_ptr s h
  case MovePtrLeft => exact move_left_data_ptr s h
  all_goals exact h

/-- Injectivity of a some-wrapped interpreter step outcome. -/
theorem some_pair_eq {a : Interpreter} {q : InterpreterResult}
    {s' : Interpreter} {r : InterpreterResult}
    (h : some (a, q) = some (s', r)) : s' = a ∧ r = q := by
  injection h with h2
  injection h2 with h3 h4
  exact ⟨h3.symm, h4.symm⟩

/-- Any non-panicking interpret_symbol step preserves data_ptr < MEM_SIZE. -/
theorem interpret_symbol_data_ptr {b : Option Nat} {s s' : Interpreter}
    {y : InterpreterSymbol} {r : InterpreterResult}
    (hstep : interpret_symbol b s y = some (s', r))
    (h : s.data_ptr < MEM_SIZE) : s'.data_ptr < MEM_SIZE := by
  cases hs : s.state with
  | Halted =>
      simp only [interpret_symbol, hs] at hstep
      obtain ⟨h1, h2⟩ := some_pair_eq hstep
      subst h1
      exact h
  | Running =>
      cases y with
      | EOF =>
          simp only [interpret_symbol, hs] at hstep
          obtain ⟨h1, h2⟩ := some_pair_eq hstep
          subst h1
          exact h
      | Other c =>
          simp only [interpret_symbol, hs] at hstep
          obtain ⟨h1, h2⟩ := some_pair_eq hstep
          subst h1
          exact h
      | Instruction i =>
          simp only [interpret_symbol, hs, Option.some.injEq] at hstep
          have h1 : (run_instruction b s i).1 = s' := congrArg Prod.fst hstep
          rw [← h1]
          exact run_instruction_data_ptr b s i h
  | Skipping d =>
      cases y with
      | EOF =>
          simp only [interpret_symbol, hs, mismatched_brackets] at hstep
          obtain ⟨h1, h2⟩ := some_pair_eq hstep
          subst h1
          exact h
      | Other c =>
          simp only [interpret_symbol, hs] at hstep
          obtain ⟨h1, h2⟩ := some_pair_eq hstep
          subst h1
          exact h
      | Instruction i =>
          cases i <;> simp only [interpret_symbol, hs] at hstep <;>
            (try split at hstep) <;>
            · obtain ⟨h1, h2⟩ := some_pair_eq hstep
              subst h1
              exact h

theorem move_right_stack (s : Interpreter) :
    ((move_right s).1).stack = s.stack := by
  unfold move_right
  split <;> rfl

theorem move_left_stack (s : Interpreter) :
    ((move_left s).1).stack = s.stack := by
  unfold move_left
  split <;> rfl

theorem delta_data_cell_stack (s : Interpreter) (d : Int) :
    ((delta_data_cell s d).1).stack = s.stack := by
  unfold delta_data_cell
  split
  · split
    · exact writeCell_stack s _
    · rfl
  · rfl

theorem print_ptr_stack (s : Interpreter) :
    ((print_ptr s).1).stack = s.stack := by
  unfold print_ptr
  split
  · split <;> rfl
  · rfl

theorem read_ptr_stack (b : Option Nat) (s : Interpreter) :
    ((read_ptr b s).1).stack = s.stack := by
  unfold read_ptr
  split
  · split
    · exact writeCell_stack s _
    · rfl
  · rfl

/-- Shape of the loop-return stack after enter_loop: the current
instruction pointer is pushed exactly when the cell is addressable and
nonzero, and the stack is untouched otherwise. -/
theorem enter_loop_stack (s : Interpreter) :
    ((enter_loop s).1).stack =
      if s.data_ptr < MEM_SIZE ∧ s.memory s.data_ptr ≠ 0 then
        s.instruction_ptr :: s.stack
      else s.stack := by
  by_cases hp : s.data_ptr < MEM_SIZE <;>
    by_cases hv : s.memory s.data_ptr ≠ 0 <;>
    simp [enter_loop, mem_ref, hp, hv]

/-- Shape of the loop-return stack after exit_loop: one entry is popped
exactly when the stack is nonempty, and nothing changes on underflow. -/
theorem exit_loop_stack (s : Interpreter) :
    ((exit_loop s).1).stack = s.stack.tail := by
  unfold exit_loop
  rcases hstack : s.stack with _ | ⟨p, rest⟩ <;> simp [hstack]

/-- The balance law for one non-panicking step: the new stack length plus
the executed-exit bit equals the old stack length plus the taken-entry
bit.  Skipped loops contribute no bits and leave the stack alone. -/
theorem interpret_symbol_stack_length {b : Option Nat} {s s' : Interpreter}
    {y : InterpreterSymbol} {r : InterpreterResult}
    (hstep : interpret_symbol b s y = some (s', r)) :
    s'.stack.length + (if exitsLoop s y then 1 else 0)
      = s.stack.length + (if entersLoop s y then 1 else 0) := by
  cases hs : s.state with
  | Halted =>
      simp only [interpret_symbol, hs] at hstep
      obtain ⟨h1, h2⟩ := some_pair_eq hstep
      subst h1
      simp [entersLoop, exitsLoop, hs]
  | Running =>
      cases y with
      | EOF =>
          simp only [interpret_symbol, hs] at hstep
          obtain ⟨h1, h2⟩ := some_pair_eq hstep
          subst h1
          simp [entersLoop, exitsLoop, hs]
      | Other c =>
          simp only [interpret_symbol, hs] at hstep
          obtain ⟨h1, h2⟩ := some_pair_eq hstep
          subst h1
          simp [entersLoop, exitsLoop, hs, next_instruction_stack]
      | Instruction i =>
          simp only [interpret_symbol, hs, Option.some.injEq] at hstep
          have h1 : (run_instruction b s i).1 = s' := congrArg Prod.fst hstep
          subst h1
          cases i <;>
            simp only [run_instruction, increment_cell, decrement_cell,
              entersLoop, exitsLoop, hs, advance_if_ok_stack,
              move_right_stack, move_left_stack, delta_data_cell_stack,
              print_ptr_stack, read_ptr_stack] <;>
            (try simp) <;> try assumption
          case LoopStart =>
              rw [enter_loop_stack]
              by_cases hp : s.data_ptr < MEM_SIZE <;>
                by_cases hv : s.memory s.data_ptr ≠ 0 <;>
                simp [hp, hv]
          case LoopEnd =>
              rw [exit_loop_stack]
              rcases hstack : s.stack with _ | ⟨p, rest⟩ <;> simp [hstack]
  | Skipping d =>
      have hb1 : entersLoop s y = false := by simp [entersLoop, hs]
      have hb2 : exitsLoop s y = false := by simp [exitsLoop, hs]
      rw [hb1, hb2]
      simp only [if_neg Bool.false_ne_true]
      cases y with
      | EOF =>
          simp only [interpret_symbol, hs, mismatched_brackets] at hstep
          obtain ⟨h1, h2⟩ := some_pair_eq hstep
          subst h1
          rfl
      | Other c =>
          simp only [interpret_symbol, hs] at hstep
          obtain ⟨h1, h2⟩ := some_pair_eq hstep
          subst h1
          rfl
      | Instruction i =>
          cases i <;> simp only [interpret_symbol, hs] at hstep <;>
            (try split at hstep) <;>
            · obtain ⟨h1, h2⟩ := some_pair_eq hstep
              subst h1
              rfl

/-- A step taken in a Skipping state never touches the loop-return stack. -/
theorem skipping_step_stack {b : Option Nat} {s s' : Interpreter}
    {y : InterpreterSymbol} {r : InterpreterResult} {d : Nat}
    (hs : s.state = .Skipping d)
    (hstep : interpret_symbol b s y = some (s', r)) :
    s'.stack = s.stack := by
  cases y with
  | EOF =>
      simp only [interpret_symbol, hs, mismatched_brackets] at hstep
      obtain ⟨h1, h2⟩ := some_pair_eq hstep
      subst h1
      rfl
  | Other c =>
      simp only [interpret_symbol, hs] at hstep
      obtain ⟨h1, h2⟩ := some_pair_eq hstep
      subst h1
      rfl
  | Instruction i =>
      cases i <;> simp only [interpret_symbol, hs] at hstep <;>
        (try split at hstep) <;>
        · obtain ⟨h1, h2⟩ := some_pair_eq hstep
          subst h1
          rfl

/-- A loop entry and a loop exit can never be the same step. -/
theorem exits_not_enters {s : Interpreter} {y : InterpreterSymbol}
    (h : exitsLoop s y = true) : entersLoop s y = false := by
  simp only [exitsLoop, Bool.and_eq_true, decide_eq_true_eq] at h
  obtain ⟨⟨hst, hy⟩, hne⟩ := h
  subst hy
  simp [entersLoop]

/-- Failure of the checked delta leaves the whole interpreter unchanged. -/
theorem delta_data_cell_fail_frame (s : Interpreter) (d : Int)
    (h : safe_delta_u8 (s.memory s.data_ptr) d = none) :
    (delta_data_cell s d).1 = s := by
  unfold delta_data_cell mem_ref
  by_cases hp : s.data_ptr < MEM_SIZE
  · simp [hp, h]
  · simp [hp]

/-- C8: Halted is terminal.  Feeding any symbol to a halted machine returns
the HaltedMachine fault and gives back exactly the same interpreter state:
tape, data pointer, instruction pointer, stack and machine state are all
untouched, so the machine can never leave Halted. -/
theorem halted_terminal (s : Interpreter) (b : Option Nat)
    (y : InterpreterSymbol) (h : s.state = .Halted) :
    interpret_symbol b s y = some (s, .error .HaltedMachine) := by
  simp only [interpret_symbol, h]
  rfl

/-- Concrete halted machine used to witness the Halted transition rule. -/
def haltedState : Interpreter := { Interpreter.new with state := .Halted }

theorem halted_terminal_witness :
    interpret_symbol none haltedState .EOF
      = some (haltedState, .error .HaltedMachine) :=
  halted_terminal haltedState none .EOF rfl

/-- C9: executing MoveLeft while the data pointer is 0 faults
PtrOutOfBounds(0) and returns the state unchanged: tape, data pointer,
instruction pointer, stack and machine state are exactly as before. -/
theorem move_left_at_zero_frame (s : Interpreter) (b : Option Nat)
    (hr : s.state = .Running) (hp : s.data_ptr = 0) :
    interpret_symbol b s (.Instruction .MovePtrLeft)
      = some (s, .error (.PtrOutOfBounds 0)) := by
  simp [interpret_symbol, hr, run_instruction, advance_if_ok, move_left,
    resultIsOk, ptr_out_of_bounds, hp]

theorem move_left_at_zero_frame_witness :
    interpret_symbol none Interpreter.new (.Instruction .MovePtrLeft)
      = some (Interpreter.new, .error (.PtrOutOfBounds 0)) :=
  move_left_at_zero_frame Interpreter.new none rfl rfl

/-- C2: a LoopEnd executed in the Running state pops the loop-return
stack: on an empty stack it faults StackUnderflow with nothing changed, and
otherwise the instruction pointer is set to the popped value with no
additional advance. -/
theorem loop_end_pops_or_underflows (s : Interpreter) (b : Option Nat)
    (h : s.state = .Running) :
    (s.stack = [] →
      interpret_symbol b s (.Instruction .LoopEnd)
        = some (s, .error .StackUnderflow)) ∧
    (∀ p rest, s.stack = p :: rest →
      interpret_symbol b s (.Instruction .LoopEnd)
        = some ({ s with instruction_ptr := p, stack := rest }, .ok ())) := by
  constructor
  · intro hstack
    simp [interpret_symbol, h, run_instruction, exit_loop, hstack,
      stack_underflow]
  · intro p rest hstack
    simp [interpret_symbol, h, run_instruction, exit_loop, hstack]

theorem loop_end_pops_or_underflows_witness :
    interpret_symbol none Interpreter.new (.Instruction .LoopEnd)
      = some (Interpreter.new, .error .StackUnderflow) :=
  (loop_end_pops_or_underflows Interpreter.new none rfl).1 rfl

/-- C6: feeding EOF to a machine skipping at depth d faults
MismatchedBrackets carrying the current instruction pointer and d missing
brackets, with the state unchanged. -/
theorem skipping_eof_mismatched_brackets (s : Interpreter) (b : Option Nat)
    (d : Nat) (hd : 1 ≤ d) (hs : s.state = .Skipping d) :
    interpret_symbol b s .EOF
      = some (s, .error (.MismatchedBrackets s.instruction_ptr d)) := by
  simp [interpret_symbol, hs, mismatched_brackets]

/-- The state a fresh machine reaches after one LoopStart over a zero cell:
instruction pointer 1, skipping at depth 1. -/
def skipOneState : Interpreter :=
  { Interpreter.new with instruction_ptr := 1, state := .Skipping 1 }

theorem skipping_eof_mismatched_brackets_witness :
    interpret_symbol none Interpreter.new (.Instruction .LoopStart)
      = some (skipOneState, .ok ()) ∧
    interpret_symbol none skipOneState .EOF
      = some (skipOneState, .error (.MismatchedBrackets 1 1)) :=
  ⟨rfl, skipping_eof_mismatched_brackets skipOneState none 1 (le_refl 1) rfl⟩

/-- C10: the panic inside the mismatched_brackets constructor is
unreachable through interpret_symbol: the constructor is only invoked from
the Skipping/EOF arm, where the state is Skipping, so interpret_symbol
always returns a value (none here models the process panicking). -/
theorem interpret_symbol_never_panics (s : Interpreter) (b : Option Nat)
    (y : InterpreterSymbol) : (interpret_symbol b s y).isSome = true := by
  cases hs : s.state with
  | Halted => simp [interpret_symbol, hs]
  | Running => cases y <;> simp [interpret_symbol, hs]
  | Skipping d =>
      cases y with
      | EOF => simp [interpret_symbol, hs, mismatched_brackets]
      | Other c => simp [interpret_symbol, hs]
      | Instruction i =>
          cases i <;> simp [interpret_symbol, hs]

/-- C3: for a byte v and delta in {+1, -1}, safe_delta_u8 returns exactly
v + delta when that value stays inside [0, 255] and fails otherwise, and on
failure delta_data_cell gives the interpreter back unchanged: no silent
wraparound ever happens. -/
theorem safe_delta_checked (v : Nat) (hv : v ≤ 255) (d : Int)
    (hd : d = 1 ∨ d = -1) :
    (safe_delta_u8 v d = some ((v : Int) + d).toNat ↔
      0 ≤ (v : Int) + d ∧ (v : Int) + d ≤ 255) ∧
    (safe_delta_u8 v d = none ↔ ¬(0 ≤ (v : Int) + d ∧ (v : Int) + d ≤ 255)) ∧
    (∀ s : Interpreter, safe_delta_u8 (s.memory s.data_ptr) d = none →
      (delta_data_cell s d).1 = s) := by
  have hadd : safe_delta_u8 v 1 = checked_add_u8 v 1 := rfl
  have hsub : safe_delta_u8 v (-1) = checked_sub_u8 v 1 := rfl
  refine ⟨?_, ?_, fun s h => delta_data_cell_fail_frame s d h⟩ <;>
    rcases hd with rfl | rfl
  · rw [hadd]
    unfold checked_add_u8
    split_ifs with h2 <;> constructor <;> intro h3 <;> simp_all <;> omega
  · rw [hsub]
    unfold checked_sub_u8
    split_ifs with h2 <;> constructor <;> intro h3 <;> simp_all <;> omega
  · rw [hadd]
    unfold checked_add_u8
    split_ifs with h2 <;> constructor <;> intro h3 <;> simp_all <;> omega
  · rw [hsub]
    unfold checked_sub_u8
    split_ifs with h2 <;> constructor <;> intro h3 <;> simp_all <;> omega

theorem safe_delta_checked_witness :
    safe_delta_u8 255 1 = none :=
  ((safe_delta_checked 255 (by decide) 1 (Or.inl rfl)).2.1).mpr (by decide)

/-- C1: on every reachable interpreter state the data pointer is a valid
tape index, MoveRight succeeds exactly when data_ptr + 1 < capacity and
faults PtrOutOfBounds otherwise, and MoveLeft succeeds exactly when
data_ptr > 0 and faults PtrOutOfBounds at 0, so every successful operation
keeps 0 <= data_ptr < 30000. -/
theorem data_ptr_invariant (s : Interpreter) (h : Reachable s) :
    s.data_ptr < MEM_SIZE ∧
    (∀ b, s.state = .Running → ¬ s.data_ptr + 1 < MEM_SIZE →
      interpret_symbol b s (.Instruction .MovePtrRight)
        = some (s, .error (.PtrOutOfBounds s.data_ptr))) ∧
    (∀ b, s.state = .Running → s.data_ptr + 1 < MEM_SIZE →
      interpret_symbol b s (.Instruction .MovePtrRight)
        = some (next_instruction { s with data_ptr := s.data_ptr + 1 },
            .ok ())) ∧
    (∀ b, s.state = .Running → s.data_ptr = 0 →
      interpret_symbol b s (.Instruction .MovePtrLeft)
        = some (s, .error (.PtrOutOfBounds s.data_ptr))) ∧
    (∀ b, s.state = .Running → 0 < s.data_ptr →
      interpret_symbol b s (.Instruction .MovePtrLeft)
        = some (next_instruction { s with data_ptr := s.data_ptr - 1 },
            .ok ())) := by
  refine ⟨?_, ?_, ?_, ?_, ?_⟩
  · induction h with
    | start => decide
    | step hR hstep ih => exact interpret_symbol_data_ptr hstep ih
  · intro b hr hnot
    simp [interpret_symbol, hr, run_instruction, advance_if_ok, move_right,
      resultIsOk, ptr_out_of_bounds, hnot]
  · intro b hr hlt
    simp [interpret_symbol, hr, run_instruction, advance_if_ok, move_right,
      resultIsOk, hlt]
  · intro b hr hp
    simp [interpret_symbol, hr, run_instruction, advance_if_ok, move_left,
      resultIsOk, ptr_out_of_bounds, hp]
  · intro b hr hp
    simp [interpret_symbol, hr, run_instruction, advance_if_ok, move_left,
      resultIsOk, hp]

theorem data_ptr_invariant_witness :
    Interpreter.new.data_ptr < MEM_SIZE :=
  (data_ptr_invariant Interpreter.new Reachable.start).1

/-- C7: along every reachable run, the length of the loop-return stack
equals the number of loop entries taken at runtime that have not yet been
exited (the entry count e minus the exit count x); a step taken while
skipping never touches the stack, and every executed LoopEnd pops exactly
one entry. -/
theorem stack_length_invariant (s : Interpreter) (e x : Nat)
    (h : ReachableC s e x) :
    s.stack.length + x = e ∧
    (∀ b y s' r d, s.state = .Skipping d →
      interpret_symbol b s y = some (s', r) → s'.stack = s.stack) ∧
    (∀ b y s' r, exitsLoop s y = true →
      interpret_symbol b s y = some (s', r) →
        s'.stack.length + 1 = s.stack.length) := by
  refine ⟨?_, ?_, ?_⟩
  · induction h with
    | start => rfl
    | step hR hstep ih =>
        have hb := interpret_symbol_stack_length hstep
        omega
  · intro b y s' r d hs hstep
    exact skipping_step_stack hs hstep
  · intro b y s' r hx hstep
    have hb := interpret_symbol_stack_length hstep
    rw [hx, exits_not_enters hx] at hb
    simpa using hb

theorem stack_length_invariant_witness :
    Interpreter.new.stack.length + 0 = 0 :=
  (stack_length_invariant Interpreter.new 0 0 ReachableC.start).1

/-- Reachable-shape state whose cell 0 holds 255, obtained from a fresh
machine by 255 increments; used to separate the fault payload from the
cell address and the delta. -/
def fullCellState : Interpreter :=
  { Interpreter.new with memory := fun i => if i = 0 then 255 else 0 }

/-- C4 does not hold of the code: the ValOutOfBounds payload is the single
byte stored at the faulting cell, not an address/delta pair.  Incrementing
a cell holding 255 at address 0 yields ValOutOfBounds 255, and 255 is
neither the cell address 0 nor the delta 1; the program consisting of one
Decrement on a fresh machine yields ValOutOfBounds 0 because the cell
value is 0, with no delta recorded anywhere. -/
theorem val_out_of_bounds_payload_counterexample :
    (interpret_symbol none fullCellState (.Instruction .IncrementPtr)
      = some (fullCellState, .error (.ValOutOfBounds 255))) ∧
    (255 : Nat) ≠ 0 ∧ (255 : Nat) ≠ 1 ∧
    (interpret_symbol none Interpreter.new (.Instruction .DecrementPtr)
      = some (Interpreter.new, .error (.ValOutOfBounds 0))) :=
  ⟨rfl, by decide, by decide, rfl⟩

/-- C4 (amended): when Increment or Decrement fails because the new value
would leave [0, 255], the fault is ValOutOfBounds carrying the current,
unchanged cell value, and the interpreter state is returned untouched; in
particular one Decrement on a fresh machine faults ValOutOfBounds 0, the
value cell 0 still holds. -/
theorem val_out_of_bounds_carries_cell_value (s : Interpreter)
    (b : Option Nat) (hr : s.state = .Running)
    (hp : s.data_ptr < MEM_SIZE) :
    (safe_delta_u8 (s.memory s.data_ptr) 1 = none →
      interpret_symbol b s (.Instruction .IncrementPtr)
        = some (s, .error (.ValOutOfBounds (s.memory s.data_ptr)))) ∧
    (safe_delta_u8 (s.memory s.data_ptr) (-1) = none →
      interpret_symbol b s (.Instruction .DecrementPtr)
        = some (s, .error (.ValOutOfBounds (s.memory s.data_ptr)))) := by
  constructor <;> intro h <;>
    simp [interpret_symbol, hr, run_instruction, increment_cell,
      decrement_cell, delta_data_cell, mem_ref, hp, h, advance_if_ok,
      resultIsOk, val_out_of_bounds]

theorem val_out_of_bounds_carries_cell_value_witness :
    interpret_symbol none Interpreter.new (.Instruction .DecrementPtr)
      = some (Interpreter.new, .error (.ValOutOfBounds 0)) :=
  (val_out_of_bounds_carries_cell_value Interpreter.new none rfl
    (by decide)).2 rfl

/-- C5 as specified does not hold of the code, which is the buggy side: a
Read whose input line starts with a character needing two UTF-8 bytes
makes interpret_symbol_io panic (none) inside encode_utf8 instead of
faulting InvalidChar, because the length guard in read_byte applies a
bitwise NOT to the length and therefore never rejects anything.  The
conforming paths still hold: an unobtainable character faults InvalidChar
with the machine unchanged, and a one-byte character is written into the
current cell with the instruction pointer advanced. -/
theorem read_multibyte_char_panics :
    interpret_symbol_io (some [Char.ofNat 0xE9]) Interpreter.new
      (.Instruction .ReadPtr) = none ∧
    interpret_symbol_io none Interpreter.new (.Instruction .ReadPtr)
      = some (Interpreter.new, .error .InvalidChar) ∧
    interpret_symbol_io (some ['a']) Interpreter.new (.Instruction .ReadPtr)
      = some (next_instruction (writeCell Interpreter.new 97), .ok ()) :=
  ⟨rfl, rfl, rfl⟩
